import Mathlib

/-!
Verification development for the search aggregation engine
(`src/backend`: `search_router.py`, `query_classifier.py`, `cache_manager.py`,
`search_providers.py`, `search_resource_manager.py`, `search_models.py`).

Modelling conventions:
* Python strings are Lean `String`s; character-level work uses `List Char`.
* Python `float` scores are modelled as exact rationals `ℚ` (the usual
  idealisation; all constants in the source are short decimals).
* Wall-clock time is a `Nat` parameter `now` (seconds); `datetime.now()` and
  SQLite `datetime('now')` are modelled as the same clock.
* MD5 in `CacheManager._hash_query` is modelled as an injective function, i.e.
  the hash of a query is the colon-joined key string itself.
* SQLite tables are association lists keyed by `query_hash` (the primary key);
  `INSERT OR REPLACE` removes the conflicting row and appends the new one.
  Row order of an SQL table is immaterial (every ordered read in the source
  uses ORDER BY), so the eviction pass is modelled as a stable sort + take.
* `async` functions have no internal concurrency observable to these claims;
  they are modelled as pure state-passing functions.  The one scheduling
  effect that matters — whether `asyncio.wait_for` times out before the
  whole `gather` finishes — is modelled by a per-provider `in_time` flag:
  the fan-out deadline expires iff some selected provider is not in time.
-/

/- Batteries marks the rational-number operations irreducible; re-open them
so that concrete witness computations reduce by `decide`. -/
unseal Rat.inv Rat.mul Rat.add Rat.sub Rat.ofScientific

/-! ### Character utilities (Python `str` methods and `re` character classes) -/

/-- Cyrillic lowercase letter а-я (U+0430..U+044F) or ё. -/
def isCyrLower (c : Char) : Bool :=
  (0x430 ≤ c.toNat && c.toNat ≤ 0x44F) || c.toNat = 0x451

/-- Cyrillic uppercase letter А-Я (U+0410..U+042F) or Ё. -/
def isCyrUpper (c : Char) : Bool :=
  (0x410 ≤ c.toNat && c.toNat ≤ 0x42F) || c.toNat = 0x401

/-- Python `str.lower` on one character (ASCII and Cyrillic, the alphabets
the source's rule tables use). -/
def lowerCh (c : Char) : Char :=
  if 'A' ≤ c ∧ c ≤ 'Z' then Char.ofNat (c.toNat + 32)
  else if 0x410 ≤ c.toNat ∧ c.toNat ≤ 0x42F then Char.ofNat (c.toNat + 32)
  else if c.toNat = 0x401 then Char.ofNat 0x451
  else c

def lowerChars (s : List Char) : List Char := s.map lowerCh

/-- Python `str.isupper` on one character (ASCII + Cyrillic). -/
def isUpperCh (c : Char) : Bool :=
  ('A' ≤ c && c ≤ 'Z') || isCyrUpper c

/-- `re` `\s` (the whitespace appearing in practice). -/
def isSpaceCh (c : Char) : Bool :=
  c = ' ' || c = '\t' || c = '\n' || c = '\r'

/-- `re` `\d`. -/
def isDigitCh (c : Char) : Bool := c.isDigit

/-- `re` `\w` under Python's unicode semantics, restricted to the alphabets
used by the rule tables: ASCII alphanumerics, underscore, Cyrillic letters. -/
def isWordCh (c : Char) : Bool :=
  c.isAlphanum || c = '_' || isCyrLower c || isCyrUpper c

/-- Python substring test `needle in hay`. -/
def containsSub (hay needle : List Char) : Bool :=
  (List.range (hay.length + 1)).any (fun i => needle.isPrefixOf (hay.drop i))

/-- Python `str.split()` (split on runs of whitespace, dropping empties). -/
def splitWs (s : List Char) : List (List Char) :=
  ((s.splitOnP isSpaceCh).filter (fun w => ¬w.isEmpty))

/-- Python `str.endswith` for a single-character suffix. -/
def endsWithCh (w : List Char) (c : Char) : Bool :=
  match w.getLast? with
  | some d => d = c
  | none => false

/-- Strip all trailing occurrences of `c` (Python `str.rstrip('/')`). -/
def rstripCh (s : List Char) (c : Char) : List Char :=
  ((s.reverse.dropWhile (fun d => d = c)).reverse)

/-! ### A small regular-expression engine

Just enough of Python `re` for the fixed patterns in `query_classifier.py`:
literals, `\b`, character-class repetitions (`\s+`, `\d\x7bm,n\x7d`, dash/slash/dot
classes, `[ья]`, `[а-яa-z]+`, …) and capturing groups over alternations of
literal/class sequences.  Alternatives are tried in order and class
repetitions greedily with backtracking, matching `re`'s leftmost /
first-alternative / greedy semantics for these patterns. -/

/-- An atom: a literal, or `k`-fold repetition of a character class with
`lo ≤ k` and `k ≤ hi` (`hi = none` means unbounded, as in `+`). -/
inductive RAtom where
  | lit (s : List Char)
  | cls (p : Char → Bool) (lo : Nat) (hi : Option Nat)

/-- A pattern item: an atom, a word boundary `\b`, or a capturing group
`( a1 | a2 | … )` whose alternatives are atom sequences. -/
inductive RItem where
  | atom (a : RAtom)
  | bound
  | grp (alts : List (List RAtom))

/-- Length of the maximal run of `p`-characters at the front. -/
def runLen (p : Char → Bool) : List Char → Nat
  | [] => 0
  | c :: cs => if p c then runLen p cs + 1 else 0

/-- Candidate end positions (preferred first) for one atom at position `i`. -/
def matchAtom (s : List Char) (i : Nat) : RAtom → List Nat
  | .lit l => if l.isPrefixOf (s.drop i) then [i + l.length] else []
  | .cls p lo hi =>
      let run := runLen p (s.drop i)
      let top := min run (hi.getD run)
      if lo ≤ top then (List.range (top + 1 - lo)).map (fun k => i + top - k)
      else []

/-- Candidate end positions for an atom sequence (backtracking, greedy). -/
def matchAtoms (s : List Char) : List RAtom → Nat → List Nat
  | [], i => [i]
  | a :: rest, i => (matchAtom s i a).flatMap (fun j => matchAtoms s rest j)

/-- Is the character at position `j` (if any) a word character? -/
def wordAt (s : List Char) (j : Nat) : Bool :=
  match s.get? j with
  | some c => isWordCh c
  | none => false

/-- `\b`: word-character status changes at position `i`. -/
def isBoundaryAt (s : List Char) (i : Nat) : Bool :=
  (if i = 0 then false else wordAt s (i - 1)) != wordAt s i

def sliceChars (s : List Char) (i j : Nat) : List Char := (s.drop i).take (j - i)

/-- Candidate `(end, captured groups)` pairs for an item sequence at `i`,
in backtracking preference order. -/
def matchItems (s : List Char) : List RItem → Nat → List (Nat × List (List Char))
  | [], i => [(i, [])]
  | .bound :: rest, i =>
      if isBoundaryAt s i then matchItems s rest i else []
  | .atom a :: rest, i =>
      (matchAtom s i a).flatMap (fun j => matchItems s rest j)
  | .grp alts :: rest, i =>
      (alts.flatMap (fun alt => matchAtoms s alt i)).flatMap (fun j =>
        (matchItems s rest j).map (fun e => (e.1, sliceChars s i j :: e.2)))

/-- `re.search(pattern, s)` truthiness. -/
def searchB (re : List RItem) (s : List Char) : Bool :=
  (List.range (s.length + 1)).any (fun i => ¬(matchItems s re i).isEmpty)

/-- One `re.findall` element: a plain match/single group, or a two-group
tuple (the only shapes occurring in the source's patterns). -/
inductive TMark where
  | one (s : List Char)
  | two (a b : List Char)
deriving DecidableEq

/-- What `findall` records for a match with captured groups `gs`. -/
def markOf (s : List Char) (i e : Nat) (gs : List (List Char)) : TMark :=
  match gs with
  | [] => .one (sliceChars s i e)
  | [g] => .one g
  | g1 :: g2 :: _ => .two g1 g2

def findallGo (re : List RItem) (s : List Char) : Nat → Nat → List TMark
  | _, 0 => []
  | i, fuel + 1 =>
      if i > s.length then []
      else
        match (matchItems s re i).head? with
        | some (e, gs) => markOf s i e gs :: findallGo re s (max e (i + 1)) fuel
        | none => findallGo re s (i + 1) fuel

/-- Python `re.findall(pattern, s)` (successive non-overlapping matches). -/
def findall (re : List RItem) (s : List Char) : List TMark :=
  findallGo re s 0 (s.length + 2)

/-! Shorthand for building patterns. -/

def rLit (s : String) : RItem := .atom (.lit s.data)
def rSpacePlus : RItem := .atom (.cls isSpaceCh 1 none)
def rDig (lo hi : Nat) : RItem := .atom (.cls isDigitCh lo (some hi))
def rChars (cs : String) (lo : Nat) (hi : Option Nat) : RItem :=
  .atom (.cls (fun c => cs.data.contains c) lo hi)
def rAltLits (ws : List String) : RItem := .grp (ws.map (fun w => [.lit w.data]))

/-! ### Data model (`search_models.py`) -/

/-- `SearchQuery` (filters/metadata are unused by the claims' code paths;
`max_results` is a Python `int`, so `Int`). -/
structure SearchQuery where
  text : String
  query_type : Option String := none
  max_results : Int := 10
  language : String := "ru"
deriving DecidableEq

/-- `SearchResult` (the optional `timestamp` is never read by the router,
classifier or cache logic under verification and is omitted; `metadata` is
modelled as a string-valued association list — the router only ever writes
and reads the `"provider"` key). -/
structure SearchResult where
  title : String
  content : String
  url : String
  source : String
  score : ℚ := 0
  metadata : List (String × String) := []
deriving DecidableEq

/-- Python dict assignment `metadata[k] = v`. -/
def setMeta (m : List (String × String)) (k v : String) : List (String × String) :=
  if m.any (fun e => e.1 = k) then m.map (fun e => if e.1 = k then (k, v) else e)
  else m ++ [(k, v)]

/-- Python `metadata.get(k, "")`. -/
def getMetaD (m : List (String × String)) (k : String) : String :=
  match m.find? (fun e => e.1 = k) with
  | some e => e.2
  | none => ""

/-- Classification report (`QueryClassifier.classify`'s result dict.
The free-text `reasoning` entry is informational prose and not modelled). -/
structure ClassificationReport where
  primary_type : String
  confidence : ℚ
  suggested_providers : List String
  scores : List (String × ℚ)
deriving DecidableEq

/-- `SearchResponse` (`search_time` is wall-clock timing and not modelled). -/
structure SearchResponse where
  query : SearchQuery
  results : List SearchResult
  total_results : Nat
  cache_hit : Bool := false
  sources_used : List String := []
  classification : Option ClassificationReport := none
deriving DecidableEq

/-! ### Query classifier (`query_classifier.py`) -/

structure ClassifierConfig where
  confidence_threshold : ℚ := 7/10
deriving DecidableEq

/-- One entry of `QueryClassifier._load_classification_rules`. -/
structure ClassRule where
  keywords : List String
  patterns : List (List RItem)
  weight : ℚ

/-- The `"factual"` rule. -/
def factualRule : ClassRule where
  keywords := ["что такое", "кто такой", "определение", "история",
    "биография", "значение", "понятие", "термин",
    "объяснить", "расскажи о", "информация о"]
  patterns :=
    [[.bound, rLit "что", rSpacePlus, rLit "такое", .bound],
     [.bound, rLit "кто", rSpacePlus, rLit "такой", .bound],
     [.bound, rLit "определение", .bound],
     [.bound, rLit "what", rSpacePlus, rLit "is", .bound],
     [.bound, rLit "who", rSpacePlus, rLit "is", .bound],
     [.bound, rLit "define", .bound],
     [.bound, rLit "explain", .bound]]
  weight := 8/10

/-- The `"current"` rule. -/
def currentRule : ClassRule where
  keywords := ["новости", "сегодня", "вчера", "текущий", "последний",
    "актуальный", "сейчас", "недавно", "события",
    "обновления", "свежий", "последние новости"]
  patterns :=
    [[.bound, rAltLits ["today", "сегодня", "yesterday", "вчера", "current",
        "текущий", "latest", "последний", "recent", "недавно"], .bound],
     [.bound, rAltLits ["news", "новости", "события", "updates", "обновления"], .bound],
     [rDig 4 4, rChars "-/" 1 (some 1), rDig 1 2, rChars "-/" 1 (some 1), rDig 1 2],
     [rDig 1 2, rChars "-/." 1 (some 1), rDig 1 2, rChars "-/." 1 (some 1), rDig 2 4]]
  weight := 9/10

/-- The `"general"` rule. -/
def generalRule : ClassRule where
  keywords := ["найти", "поиск", "искать", "показать",
    "где", "как", "почему", "зачем"]
  patterns :=
    [[.bound, rAltLits ["find", "найти", "search", "поиск", "искать", "show", "показать"], .bound],
     [.bound, rAltLits ["where", "где", "how", "как", "why", "почему"], .bound]]
  weight := 6/10

/-- Score contribution of one rule table: the loop adds `weight` once per
matching keyword and once per matching pattern. -/
def ruleScore (textLower : List Char) (r : ClassRule) : ℚ :=
  r.weight * (((r.keywords.countP (fun kw => containsSub textLower kw.data)) : ℚ)
    + ((r.patterns.countP (fun p => searchB p textLower)) : ℚ))

/-- `QueryClassifier._extract_temporal_markers`: the six `findall` patterns,
concatenated and deduplicated (`list(set(markers))`; only the count of
distinct markers feeds the score). -/
def temporalMarkers (text : String) : List TMark :=
  let tl := lowerChars text.data
  let pats : List (List RItem) :=
    [[.bound, rDig 4 4, .bound],
     [.bound, .grp
        [[.lit "январ".data, .cls (fun c => c = 'ь' || c = 'я') 1 (some 1)],
         [.lit "феврал".data, .cls (fun c => c = 'ь' || c = 'я') 1 (some 1)],
         [.lit "март".data, .cls (fun c => c = 'а') 0 (some 1)],
         [.lit "апрел".data, .cls (fun c => c = 'ь' || c = 'я') 1 (some 1)],
         [.lit "ма".data, .cls (fun c => c = 'й' || c = 'я') 1 (some 1)],
         [.lit "июн".data, .cls (fun c => c = 'ь' || c = 'я') 1 (some 1)],
         [.lit "июл".data, .cls (fun c => c = 'ь' || c = 'я') 1 (some 1)],
         [.lit "август".data, .cls (fun c => c = 'а') 0 (some 1)],
         [.lit "сентябр".data, .cls (fun c => c = 'ь' || c = 'я') 1 (some 1)],
         [.lit "октябр".data, .cls (fun c => c = 'ь' || c = 'я') 1 (some 1)],
         [.lit "ноябр".data, .cls (fun c => c = 'ь' || c = 'я') 1 (some 1)],
         [.lit "декабр".data, .cls (fun c => c = 'ь' || c = 'я') 1 (some 1)]], .bound],
     [.bound, rAltLits ["понедельник", "вторник", "среда", "четверг",
        "пятница", "суббота", "воскресенье"], .bound],
     [.bound, rAltLits ["сегодня", "вчера", "завтра", "позавчера", "послезавтра"], .bound],
     [.bound, rAltLits ["утром", "днем", "вечером", "ночью"], .bound],
     [.bound, rAltLits ["прошлый", "этот", "следующий", "текущий"], rSpacePlus,
      rAltLits ["год", "месяц", "неделя", "день"], .bound]]
  (pats.flatMap (fun p => findall p tl)).dedup

/-- `QueryClassifier._extract_named_entities`: capitalised non-initial words
(skipping words after a period, short words and a stop list), plus
organisation-suffix regex matches on the original text.  Only the length of
the returned list feeds the score, so entities are kept as raw strings. -/
def namedEntities (text : String) : List (List Char) :=
  let words := splitWs text.data
  let wordEnts := (List.range words.length).filterMap (fun i =>
    match words.get? i, words.get? (i - 1) with
    | some w, some prev =>
        if 0 < i ∧ isUpperCh (w.headD ' ') ∧ ¬endsWithCh prev '.'
            ∧ 2 < w.length ∧ lowerChars w ∉ ["это".data, "они".data, "она".data, "оно".data]
        then some w else none
    | _, _ => none)
  let upperCls : RItem := .atom (.cls isUpperCh 1 (some 1))
  let lowerPlus : RItem := .atom (.cls (fun c => isCyrLower c || ('a' ≤ c && c ≤ 'z')) 1 none)
  let companyPats : List (List RItem) :=
    [[.bound, rAltLits ["ООО", "ОАО", "ЗАО", "ПАО", "Inc", "Ltd", "LLC", "Corp", "Corporation"],
      rSpacePlus, upperCls, lowerPlus, .bound],
     [.bound, upperCls, lowerPlus, rSpacePlus,
      rAltLits ["Inc", "Ltd", "LLC", "Corp", "Corporation"], .bound]]
  let companyEnts := (companyPats.flatMap (fun p => findall p text.data)).map (fun m =>
    match m with
    | .one s => s
    | .two a _ => a)
  wordEnts ++ companyEnts

/-- Score of the `"factual"` type: rule table plus `0.2` per named entity. -/
def scoreFactual (q : SearchQuery) : ℚ :=
  ruleScore (lowerChars q.text.data) factualRule + (2/10) * ((namedEntities q.text).length : ℚ)

/-- Score of the `"current"` type: rule table plus `0.3` per distinct
temporal marker. -/
def scoreCurrent (q : SearchQuery) : ℚ :=
  ruleScore (lowerChars q.text.data) currentRule + (3/10) * ((temporalMarkers q.text).length : ℚ)

/-- Score of the `"general"` type. -/
def scoreGeneral (q : SearchQuery) : ℚ :=
  ruleScore (lowerChars q.text.data) generalRule

/-- The scores dict, keyed like the source's `scores`. -/
def typeScore (q : SearchQuery) (t : String) : ℚ :=
  if t = "factual" then scoreFactual q
  else if t = "current" then scoreCurrent q
  else if t = "general" then scoreGeneral q
  else 0

/-- `max(scores, key=scores.get)`: first key (iteration order
factual, current, general) attaining the maximum. -/
def argmaxType (sf sc sg : ℚ) : String :=
  if sc ≤ sf ∧ sg ≤ sf then "factual"
  else if sg ≤ sc then "current"
  else "general"

/-- Value at the arg-max key. -/
def maxScore (sf sc sg : ℚ) : ℚ :=
  if sc ≤ sf ∧ sg ≤ sf then sf
  else if sg ≤ sc then sc
  else sg

/-- `QueryClassifier._select_providers_for_type`. -/
def selectProvidersForType (cfg : ClassifierConfig) (queryType : String)
    (confidence : ℚ) : List String :=
  if confidence < cfg.confidence_threshold then ["duckduckgo", "wikipedia", "rss"]
  else if queryType = "factual" then ["wikipedia", "duckduckgo"]
  else if queryType = "current" then ["rss", "duckduckgo"]
  else if queryType = "general" then ["duckduckgo", "wikipedia", "rss"]
  else ["duckduckgo"]

/-- `QueryClassifier.classify`. -/
def classify (cfg : ClassifierConfig) (q : SearchQuery) : ClassificationReport :=
  let sf := scoreFactual q
  let sc := scoreCurrent q
  let sg := scoreGeneral q
  let total := sf + sc + sg
  let primary := if total = 0 then "general" else argmaxType sf sc sg
  let confidence := if total = 0 then 1/2 else maxScore sf sc sg / total
  { primary_type := primary
    confidence := confidence
    suggested_providers := selectProvidersForType cfg primary confidence
    scores := [("factual", sf), ("current", sc), ("general", sg)] }

/-- Keyword table of a type (empty for unknown types). -/
def keywordsOfType (t : String) : List String :=
  if t = "factual" then factualRule.keywords
  else if t = "current" then currentRule.keywords
  else if t = "general" then generalRule.keywords
  else []

/-! ### Cache manager (`cache_manager.py`)

The SQLite table `search_cache` is a list of rows; `query_hash` is the
primary key.  `datetime` values are `Nat` seconds on one shared clock. -/

structure CacheConfig where
  enabled : Bool := true
  default_ttl : Nat := 3600
  max_entries : Nat := 10000
deriving DecidableEq

structure CacheEntry where
  query_hash : String
  query_text : String
  query_type : Option String
  results : List SearchResult
  sources : List String
  created_at : Nat
  expires_at : Nat
  access_count : Nat
  last_accessed : Nat
deriving DecidableEq

/-- `CacheManager._hash_query`, with MD5 modelled as injective: the key is
the joined string itself.  Note the Python truthiness test
`if query.query_type:` — `None` and `""` both skip the type suffix. -/
def hashQuery (q : SearchQuery) : String :=
  let base := q.text ++ ":" ++ q.language ++ ":" ++ toString q.max_results
  match q.query_type with
  | some t => if t = "" then base else base ++ ":" ++ t
  | none => base

/-- `CacheManager._get_ttl_for_query_type`. -/
def ttlForQueryType (cfg : CacheConfig) (qt : Option String) : Nat :=
  match qt with
  | some "factual" => 86400
  | some "current" => 3600
  | some "general" => 21600
  | _ => cfg.default_ttl

/-- A row is live (not yet expired) at time `now`:
SQLite `expires_at > datetime('now')`. -/
def entryLive (now : Nat) (e : CacheEntry) : Bool := now < e.expires_at

def liveCount (tbl : List CacheEntry) (now : Nat) : Nat :=
  (tbl.filter (entryLive now)).length

/-- The `get` row filter: `WHERE query_hash = ? AND expires_at > datetime('now')`. -/
def getPred (h : String) (now : Nat) (e : CacheEntry) : Bool :=
  decide (e.query_hash = h) && entryLive now e

/-- `CacheManager.get`: select by hash among unexpired rows; a hit bumps
`access_count` and refreshes `last_accessed`.  Returns the deserialised
`(results, sources)` plus the updated table. -/
def cacheGet (cfg : CacheConfig) (q : SearchQuery) (now : Nat)
    (tbl : List CacheEntry) : Option (List SearchResult × List String) × List CacheEntry :=
  if ¬cfg.enabled then (none, tbl)
  else
    match tbl.find? (getPred (hashQuery q) now) with
    | some e =>
        (some (e.results, e.sources),
         tbl.map (fun r => if r.query_hash = hashQuery q
            then { r with access_count := r.access_count + 1, last_accessed := now }
            else r))
    | none => (none, tbl)

/-- ORDER BY `last_accessed DESC, access_count DESC`: `a` sorts no later
than `b`. -/
def cacheHotter (a b : CacheEntry) : Prop :=
  b.last_accessed < a.last_accessed ∨
    (a.last_accessed = b.last_accessed ∧ b.access_count ≤ a.access_count)

instance : DecidableRel cacheHotter := fun a b =>
  inferInstanceAs (Decidable (b.last_accessed < a.last_accessed ∨
    (a.last_accessed = b.last_accessed ∧ b.access_count ≤ a.access_count)))

instance : IsTotal CacheEntry cacheHotter where
  total a b := by
    unfold cacheHotter
    rcases lt_trichotomy a.last_accessed b.last_accessed with h | h | h
    · exact Or.inr (Or.inl h)
    · rcases le_total b.access_count a.access_count with h2 | h2
      · exact Or.inl (Or.inr ⟨h, h2⟩)
      · exact Or.inr (Or.inr ⟨h.symm, h2⟩)
    · exact Or.inl (Or.inl h)

instance : IsTrans CacheEntry cacheHotter where
  trans a b c hab hbc := by
    unfold cacheHotter at *
    rcases hab with h1 | ⟨e1, l1⟩
    · rcases hbc with h2 | ⟨e2, _⟩
      · exact Or.inl (h2.trans h1)
      · exact Or.inl (e2 ▸ h1)
    · rcases hbc with h2 | ⟨e2, l2⟩
      · exact Or.inl (e1 ▸ h2)
      · exact Or.inr ⟨e1.trans e2, l2.trans l1⟩

/-- `int(self.max_entries * 0.8)`: the source truncates the float product;
for these magnitudes that is the floor, i.e. `8 * max / 10` in `Nat`. -/
def keepCount (cfg : CacheConfig) : Nat := cfg.max_entries * 8 / 10

/-- `CacheManager._check_cache_size`: if the row count exceeds
`max_entries`, keep only the first `keepCount` rows under
ORDER BY `last_accessed DESC, access_count DESC` and delete the rest. -/
def checkCacheSize (cfg : CacheConfig) (tbl : List CacheEntry) : List CacheEntry :=
  if cfg.max_entries < tbl.length
  then (List.insertionSort cacheHotter tbl).take (keepCount cfg)
  else tbl

/-- The row written by `CacheManager.store` (`INSERT OR REPLACE`;
`access_count` takes its column default 1). -/
def mkCacheEntry (cfg : CacheConfig) (q : SearchQuery) (results : List SearchResult)
    (sources : List String) (now : Nat) : CacheEntry :=
  { query_hash := hashQuery q
    query_text := q.text
    query_type := q.query_type
    results := results
    sources := sources
    created_at := now
    expires_at := now + ttlForQueryType cfg q.query_type
    access_count := 1
    last_accessed := now }

/-- `INSERT OR REPLACE` keyed on `query_hash`. -/
def upsertEntry (tbl : List CacheEntry) (e : CacheEntry) : List CacheEntry :=
  tbl.filter (fun r => ¬r.query_hash = e.query_hash) ++ [e]

/-- `CacheManager.store`: no-op when disabled or when `results` is empty
(`if not self.enabled or not results: return`); otherwise upsert the row
and run the size check. -/
def cacheStore (cfg : CacheConfig) (q : SearchQuery) (results : List SearchResult)
    (sources : List String) (now : Nat) (tbl : List CacheEntry) : List CacheEntry :=
  if ¬cfg.enabled ∨ results = [] then tbl
  else checkCacheSize cfg (upsertEntry tbl (mkCacheEntry cfg q results sources now))

/-- `CacheManager.cleanup_expired`: delete rows with `expires_at < now`. -/
def cleanupExpired (cfg : CacheConfig) (now : Nat) (tbl : List CacheEntry) : List CacheEntry :=
  if ¬cfg.enabled then tbl else tbl.filter (fun e => ¬e.expires_at < now)

/-! ### Providers (`search_providers.py`)

A provider is modelled by its observable behaviour during one fan-out:
configuration flags, the outcome of its `search` coroutine (a result list,
or a raised exception), its `is_available` probe, its supported query
types, and whether its task finishes before the router deadline
(`in_time`; see the module comment). -/

instance : DecidableEq (Except String (List SearchResult)) := fun a b =>
  match a, b with
  | .ok x, .ok y =>
      if h : x = y then .isTrue (by rw [h]) else .isFalse (by simp [h])
  | .error x, .error y =>
      if h : x = y then .isTrue (by rw [h]) else .isFalse (by simp [h])
  | .ok _, .error _ => .isFalse (by simp)
  | .error _, .ok _ => .isFalse (by simp)

structure Provider where
  name : String
  enabled : Bool := true
  weight : ℚ := 1
  available : Bool := true
  search_outcome : Except String (List SearchResult) := .ok []
  supported_types : List String := []
  in_time : Bool := true
deriving DecidableEq

/-- `SearchProvider.validate_query`: non-empty text and positive
`max_results`. -/
def validateQuery (q : SearchQuery) : Bool :=
  ¬(q.text.data.all isSpaceCh) ∧ 0 < q.max_results

/-- `SearchProvider.safe_search`: skip when disabled / invalid / not
available; catch any exception from `search` and return `[]`; on success
multiply each result score by the provider weight.  It never raises. -/
def safeSearch (p : Provider) (q : SearchQuery) : List SearchResult :=
  if ¬p.enabled then []
  else if ¬validateQuery q then []
  else if ¬p.available then []
  else
    match p.search_outcome with
    | .error _ => []
    | .ok rs => rs.map (fun r => { r with score := r.score * p.weight })

/-! ### Search router (`search_router.py`) -/

structure RateLimitConfig where
  enabled : Bool := false
  requests_per_minute : Nat := 60
deriving DecidableEq

structure RouterConfig where
  enabled : Bool := true
  strategy : String := "smart_routing"
  default_language : String := "ru"
  max_results : Int := 10
  classification : ClassifierConfig := {}
  cache : CacheConfig := {}
  rate_limiting : RateLimitConfig := {}
deriving DecidableEq

structure RouterState where
  cache_table : List CacheEntry := []
  request_times : List Nat := []
deriving DecidableEq

/-- `SearchRouter._check_rate_limit`: prune timestamps older than a minute,
reject when the window is full, otherwise record the request.  `none`
models returning `False` (the caller then raises). -/
def checkRateLimit (cfg : RouterConfig) (now : Nat) (times : List Nat) :
    Option (List Nat) :=
  if ¬cfg.rate_limiting.enabled then some times
  else
    let recent := times.filter (fun t => now - t < 60)
    if cfg.rate_limiting.requests_per_minute ≤ recent.length then none
    else some (recent ++ [now])

/-- `SearchRouter._select_providers`. -/
def selectProviders (cfg : RouterConfig) (provs : List Provider)
    (cls : ClassificationReport) : List Provider :=
  if cfg.strategy = "all_providers" then provs
  else
    let selected :=
      if cfg.classification.confidence_threshold < cls.confidence then
        cls.suggested_providers.filterMap (fun n =>
          match provs.find? (fun p => p.name = n) with
          | some p => if p.available then some p else none
          | none => none)
      else
        provs.filter (fun p => p.available ∧ cls.primary_type ∈ p.supported_types)
    if selected = [] then
      match provs.find? (fun p => p.name = "duckduckgo") with
      | some p => [p]
      | none => selected
    else selected

/-- `SearchRouter._execute_search`: fan out `safe_search` under
`asyncio.wait_for(asyncio.gather(...), timeout)`.  If the deadline expires
before every task finishes, the `TimeoutError` handler sets `results = []`,
so the collected dict is empty; otherwise the dict pairs each provider name
with its (never-raising) `safe_search` output. -/
def executeSearch (q : SearchQuery) (provs : List Provider) :
    List (String × List SearchResult) :=
  let names := provs.map (fun p => p.name)
  let results : List (List SearchResult) :=
    if provs.all (fun p => p.in_time) then provs.map (fun p => safeSearch p q) else []
  names.zip results

/-- URL normalisation in `_aggregate_results`:
`result.url.lower().rstrip('/')`. -/
def normalizeUrl (u : String) : String :=
  ⟨rstripCh (lowerChars u.data) '/'⟩

/-- The flatten-and-tag step of `_aggregate_results`: every result gets
`metadata["provider"] = provider_name`, in dict iteration order. -/
def collectResults (pr : List (String × List SearchResult)) : List SearchResult :=
  pr.flatMap (fun nr =>
    nr.2.map (fun r => { r with metadata := setMeta r.metadata "provider" nr.1 }))

/-- The URL-dedup loop of `_aggregate_results` with its `seen_urls` set:
keep a result if its normalised URL is non-empty and unseen; also keep any
result whose raw URL is empty; drop everything else. -/
def dedupResults : List SearchResult → List String → List SearchResult
  | [], _ => []
  | r :: rest, seen =>
      let nu := normalizeUrl r.url
      if nu ≠ "" ∧ nu ∉ seen then r :: dedupResults rest (nu :: seen)
      else if r.url = "" then r :: dedupResults rest seen
      else dedupResults rest seen

/-- Score adjustment in `_rank_results`: type/provider bonus, then clamp
to 1.0. -/
def applyBonus (q : SearchQuery) (r : SearchResult) : SearchResult :=
  let provider := getMetaD r.metadata "provider"
  let score :=
    if q.query_type = some "factual" ∧ provider = "wikipedia" then r.score * (12/10)
    else if q.query_type = some "current" ∧ provider = "rss" then r.score * (115/100)
    else r.score
  { r with score := min score 1 }

/-- Sort key `results.sort(key=lambda x: x.score, reverse=True)`:
descending by score.  Python's sort is stable; `insertionSort` with this
non-strict relation is the same stable sort. -/
def scoreGe (a b : SearchResult) : Prop := b.score ≤ a.score

instance : DecidableRel scoreGe := fun a b =>
  inferInstanceAs (Decidable (b.score ≤ a.score))

instance : IsTotal SearchResult scoreGe where
  total a b := le_total b.score a.score

instance : IsTrans SearchResult scoreGe where
  trans _ _ _ hab hbc := le_trans hbc hab

/-- `SearchRouter._rank_results`. -/
def rankResults (results : List SearchResult) (q : SearchQuery) : List SearchResult :=
  List.insertionSort scoreGe (results.map (applyBonus q))

/-- `SearchRouter._aggregate_results`. -/
def aggregateResults (pr : List (String × List SearchResult)) (q : SearchQuery) :
    List SearchResult :=
  let allResults := collectResults pr
  if allResults = [] then []
  else (rankResults (dedupResults allResults []) q).take q.max_results.toNat

/-- Query normalisation at the head of `search`: a raw string becomes a
`SearchQuery` with router defaults; an explicit `SearchQuery` has any
explicitly passed parameters written onto it. -/
def buildQuery (cfg : RouterConfig) (input : String ⊕ SearchQuery)
    (queryType : Option String) (maxResults : Option Int)
    (language : Option String) : SearchQuery :=
  match input with
  | .inr q =>
      { q with
        query_type := match queryType with | some t => some t | none => q.query_type
        max_results := match maxResults with | some m => m | none => q.max_results
        language := match language with | some l => l | none => q.language }
  | .inl text =>
      { text := text
        query_type := queryType
        max_results := maxResults.getD cfg.max_results
        language := language.getD cfg.default_language }

/-- `SearchRouter.search`.  Returns `Except` because the rate limiter
raises `Exception("Rate limit exceeded")`; every other path returns a
`SearchResponse` together with the updated router state. -/
def routerSearch (cfg : RouterConfig) (provs : List Provider)
    (input : String ⊕ SearchQuery) (queryType : Option String)
    (maxResults : Option Int) (language : Option String) (now : Nat)
    (σ : RouterState) : Except String (SearchResponse × RouterState) :=
  if ¬cfg.enabled then
    .ok ({ query := buildQuery cfg input none none none, results := [],
           total_results := 0, sources_used := [] }, σ)
  else
    match checkRateLimit cfg now σ.request_times with
    | none => .error "Rate limit exceeded"
    | some times' =>
      let q := buildQuery cfg input queryType maxResults language
      let hit := cacheGet cfg.cache q now σ.cache_table
      match hit.1 with
      | some rs =>
          .ok ({ query := q, results := rs.1, total_results := rs.1.length,
                 cache_hit := true, sources_used := rs.2 },
               { cache_table := hit.2, request_times := times' })
      | none =>
        let cls := classify cfg.classification q
        let q' := { q with query_type := some cls.primary_type }
        let sel := selectProviders cfg provs cls
        if sel = [] then
          .ok ({ query := q', results := [], total_results := 0,
                 cache_hit := false, sources_used := [],
                 classification := some cls },
               { cache_table := hit.2, request_times := times' })
        else
          let pr := executeSearch q' sel
          let final := aggregateResults pr q'
          let tbl' :=
            if final ≠ [] then
              cacheStore cfg.cache q' final (pr.map (fun e => e.1)) now hit.2
            else hit.2
          .ok ({ query := q', results := final, total_results := final.length,
                 cache_hit := false, sources_used := pr.map (fun e => e.1),
                 classification := some cls },
               { cache_table := tbl', request_times := times' })

/-- The `sources_used` of a non-raising `search` call. -/
def sourcesOf (r : Except String (SearchResponse × RouterState)) : List String :=
  match r with
  | .ok x => x.1.sources_used
  | .error _ => []

/-! ### Resource manager (`search_resource_manager.py`) -/

structure Session where
  closed : Bool := false
deriving DecidableEq

structure RMState where
  session_pool : List (String × Session) := []
  active_sessions : List Session := []
  cleanup_tasks : Nat := 0
  is_closed : Bool := false
deriving DecidableEq

/-- `SearchResourceManager.get_session`: raises `RuntimeError` after
close; otherwise returns the pooled session if still open, discarding a
stale one and creating a fresh session when needed. -/
def getSession (σ : RMState) (providerName : String) :
    Except String (Session × RMState) :=
  if σ.is_closed then .error "SearchResourceManager is closed"
  else
    match σ.session_pool.find? (fun e => e.1 = providerName) with
    | some e =>
        if ¬e.2.closed then .ok (e.2, σ)
        else
          let fresh : Session := {}
          .ok (fresh,
            { σ with
              session_pool :=
                (σ.session_pool.filter (fun r => ¬r.1 = providerName)) ++ [(providerName, fresh)]
              active_sessions := (σ.active_sessions.filter (fun s => s ≠ e.2)) ++ [fresh] })
    | none =>
        let fresh : Session := {}
        .ok (fresh,
          { σ with
            session_pool := σ.session_pool ++ [(providerName, fresh)]
            active_sessions := σ.active_sessions ++ [fresh] })

/-- `SearchResourceManager.close_all`: an early return when already closed;
otherwise cancel cleanup tasks, close every session and clear all tracking
state, leaving the closed flag set. -/
def closeAll (σ : RMState) : RMState :=
  if σ.is_closed then σ
  else { session_pool := [], active_sessions := [], cleanup_tasks := 0, is_closed := true }

/-! ### Helper lemmas -/

theorem applyBonus_url (q : SearchQuery) (r : SearchResult) :
    (applyBonus q r).url = r.url := rfl

theorem normalizeUrl_of_empty : normalizeUrl "" = "" := rfl

/-- Results kept by the dedup loop with a non-empty normalised URL were not
in the incoming `seen_urls` set. -/
theorem dedupResults_not_mem_seen (l : List SearchResult) :
    ∀ (seen : List String) (r : SearchResult),
      r ∈ dedupResults l seen → normalizeUrl r.url ≠ "" → normalizeUrl r.url ∉ seen := by
  induction l with
  | nil => intro seen r h _; simp [dedupResults] at h
  | cons x rest ih =>
      intro seen r h hne
      unfold dedupResults at h
      by_cases h1 : normalizeUrl x.url ≠ "" ∧ normalizeUrl x.url ∉ seen
      · rw [if_pos h1] at h
        rcases List.mem_cons.mp h with rfl | h2
        · exact h1.2
        · intro hc
          exact ih (normalizeUrl x.url :: seen) r h2 hne (List.mem_cons_of_mem _ hc)
      · rw [if_neg h1] at h
        by_cases h2 : x.url = ""
        · rw [if_pos h2] at h
          rcases List.mem_cons.mp h with rfl | h3
          · exact absurd (by rw [h2]; rfl) hne
          · exact ih seen r h3 hne
        · rw [if_neg h2] at h
          exact ih seen r h hne

/-- Two kept results with non-empty URLs never share a normalised URL. -/
def distinctNormUrl (a b : SearchResult) : Prop :=
  normalizeUrl a.url ≠ "" → normalizeUrl b.url ≠ "" →
    normalizeUrl a.url ≠ normalizeUrl b.url

instance : DecidableRel distinctNormUrl := fun a b =>
  inferInstanceAs (Decidable (normalizeUrl a.url ≠ "" → normalizeUrl b.url ≠ "" →
    normalizeUrl a.url ≠ normalizeUrl b.url))

theorem distinctNormUrl_symm : Symmetric distinctNormUrl := by
  intro a b h ha hb
  exact (h hb ha).symm

theorem pairwise_dedupResults (l : List SearchResult) :
    ∀ seen : List String, List.Pairwise distinctNormUrl (dedupResults l seen) := by
  induction l with
  | nil => intro seen; simp [dedupResults]
  | cons x rest ih =>
      intro seen
      unfold dedupResults
      by_cases h1 : normalizeUrl x.url ≠ "" ∧ normalizeUrl x.url ∉ seen
      · rw [if_pos h1]
        refine List.pairwise_cons.mpr ⟨?_, ih _⟩
        intro b hb _ hbne
        have := dedupResults_not_mem_seen rest _ b hb hbne
        intro hc
        exact this (hc ▸ List.mem_cons_self _ _)
      · rw [if_neg h1]
        by_cases h2 : x.url = ""
        · rw [if_pos h2]
          refine List.pairwise_cons.mpr ⟨?_, ih _⟩
          intro b _ hx _
          exact absurd (by rw [h2]; rfl) hx
        · rw [if_neg h2]
          exact ih seen

/-- The dedup loop keeps results with an empty URL verbatim. -/
theorem dedupResults_filter_empty (l : List SearchResult) :
    ∀ seen : List String,
      (dedupResults l seen).filter (fun r => decide (r.url = ""))
        = l.filter (fun r => decide (r.url = "")) := by
  induction l with
  | nil => intro seen; simp [dedupResults]
  | cons x rest ih =>
      intro seen
      unfold dedupResults
      by_cases h1 : normalizeUrl x.url ≠ "" ∧ normalizeUrl x.url ∉ seen
      · rw [if_pos h1]
        have hx : x.url ≠ "" := by
          intro hc
          exact h1.1 (by rw [hc]; rfl)
        simp only [List.filter_cons, decide_eq_true_eq]
        rw [if_neg hx, if_neg hx]
        exact ih _
      · rw [if_neg h1]
        by_cases h2 : x.url = ""
        · rw [if_pos h2]
          simp only [List.filter_cons, decide_eq_true_eq]
          rw [if_pos h2, if_pos h2, ih seen]
        · rw [if_neg h2]
          simp only [List.filter_cons, decide_eq_true_eq]
          rw [if_neg h2]
          exact ih seen

/-- Among results sharing a normalised URL, the dedup loop keeps exactly the
first in iteration order: `find?` on any not-yet-seen non-empty normalised
URL agrees before and after dedup. -/
theorem dedupResults_find (l : List SearchResult) :
    ∀ (seen : List String) (u : String), u ≠ "" → u ∉ seen →
      (dedupResults l seen).find? (fun r => decide (normalizeUrl r.url = u))
        = l.find? (fun r => decide (normalizeUrl r.url = u)) := by
  induction l with
  | nil => intro seen u _ _; simp [dedupResults]
  | cons x rest ih =>
      intro seen u hu hus
      unfold dedupResults
      by_cases h1 : normalizeUrl x.url ≠ "" ∧ normalizeUrl x.url ∉ seen
      · rw [if_pos h1]
        by_cases he : normalizeUrl x.url = u
        · rw [List.find?_cons_of_pos _ (by simpa using he),
              List.find?_cons_of_pos _ (by simpa using he)]
        · rw [List.find?_cons_of_neg _ (by simpa using he),
              List.find?_cons_of_neg _ (by simpa using he)]
          refine ih _ u hu ?_
          intro hc
          rcases List.mem_cons.mp hc with rfl | hc2
          · exact he rfl
          · exact hus hc2
      · rw [if_neg h1]
        by_cases h2 : x.url = ""
        · rw [if_pos h2]
          have hne : ¬normalizeUrl x.url = u := by
            rw [h2]
            exact fun hc => hu hc.symm
          rw [List.find?_cons_of_neg _ (by simpa using hne),
              List.find?_cons_of_neg _ (by simpa using hne)]
          exact ih seen u hu hus
        · rw [if_neg h2]
          have hne : ¬normalizeUrl x.url = u := by
            rcases not_and_or.mp h1 with hc | hc
            · rw [not_not.mp hc]
              exact fun hc2 => hu hc2.symm
            · intro hc2
              exact hus (hc2 ▸ (not_not.mp hc))
          rw [List.find?_cons_of_neg _ (by simpa using hne)]
          exact ih seen u hu hus

/-- Members of the dedup output whose URL normalises to empty have a raw
empty URL (slash-only URLs are dropped by both branches). -/
theorem dedupResults_norm_empty (l : List SearchResult) :
    ∀ (seen : List String) (r : SearchResult),
      r ∈ dedupResults l seen → normalizeUrl r.url = "" → r.url = "" := by
  induction l with
  | nil => intro seen r h _; simp [dedupResults] at h
  | cons x rest ih =>
      intro seen r h hnr
      unfold dedupResults at h
      by_cases h1 : normalizeUrl x.url ≠ "" ∧ normalizeUrl x.url ∉ seen
      · rw [if_pos h1] at h
        rcases List.mem_cons.mp h with rfl | h2
        · exact absurd hnr h1.1
        · exact ih _ r h2 hnr
      · rw [if_neg h1] at h
        by_cases h2 : x.url = ""
        · rw [if_pos h2] at h
          rcases List.mem_cons.mp h with rfl | h3
          · exact h2
          · exact ih seen r h3 hnr
        · rw [if_neg h2] at h
          exact ih seen r h hnr

/-- Inserting an element whose score misses the filter leaves the filter
unchanged. -/
theorem filter_orderedInsert_neg (p : SearchResult → Bool) (a : SearchResult)
    (ha : p a = false) (l : List SearchResult) :
    (List.orderedInsert scoreGe a l).filter p = l.filter p := by
  induction l with
  | nil => simp [List.orderedInsert, List.filter, ha]
  | cons b rest ih =>
      unfold List.orderedInsert
      by_cases h : scoreGe a b
      · rw [if_pos h]
        simp [List.filter, ha]
      · rw [if_neg h]
        simp only [List.filter_cons]
        rw [ih]

/-- Inserting an element with the filtered score into a descending-sorted
list puts it in front of all equal-score elements. -/
theorem filter_orderedInsert_pos (s : ℚ) (a : SearchResult)
    (ha : a.score = s) (l : List SearchResult) (hl : List.Sorted scoreGe l) :
    (List.orderedInsert scoreGe a l).filter (fun r => decide (r.score = s))
      = a :: l.filter (fun r => decide (r.score = s)) := by
  induction l with
  | nil => simp [List.orderedInsert, List.filter, ha]
  | cons b rest ih =>
      unfold List.orderedInsert
      by_cases h : scoreGe a b
      · rw [if_pos h]
        simp only [List.filter_cons, decide_eq_true_eq]
        rw [if_pos ha]
      · rw [if_neg h]
        have hb : ¬b.score = s := by
          intro hc
          exact h (by unfold scoreGe; rw [hc, ha])
        simp only [List.filter_cons, decide_eq_true_eq, if_neg hb]
        exact ih (List.Sorted.of_cons hl)

/-- Stability of the score sort: for each score value, the sorted list
restricted to that score equals the input restricted to it. -/
theorem filter_insertionSort (s : ℚ) (l : List SearchResult) :
    (List.insertionSort scoreGe l).filter (fun r => decide (r.score = s))
      = l.filter (fun r => decide (r.score = s)) := by
  induction l with
  | nil => rfl
  | cons a rest ih =>
      show (List.orderedInsert scoreGe a (List.insertionSort scoreGe rest)).filter _ = _
      by_cases ha : a.score = s
      · rw [filter_orderedInsert_pos s a ha _ (List.sorted_insertionSort scoreGe rest)]
        simp only [List.filter_cons, decide_eq_true_eq]
        rw [if_pos ha, ih]
      · rw [filter_orderedInsert_neg _ a (by simpa using ha)]
        simp only [List.filter_cons, decide_eq_true_eq]
        rw [if_neg ha]
        exact ih

/-- `rankResults` preserves any symmetric URL-level pairwise property. -/
theorem pairwise_rankResults (l : List SearchResult) (q : SearchQuery)
    (h : List.Pairwise distinctNormUrl l) :
    List.Pairwise distinctNormUrl (rankResults l q) := by
  unfold rankResults
  have hmap : List.Pairwise distinctNormUrl (l.map (applyBonus q)) := by
    rw [List.pairwise_map]
    refine h.imp ?_
    intro a b hab
    unfold distinctNormUrl at *
    rw [applyBonus_url, applyBonus_url]
    exact hab
  exact ((List.perm_insertionSort scoreGe _).pairwise_iff
    (fun h' => distinctNormUrl_symm h')).mpr hmap

/-- The aggregated response keeps the pairwise-distinct-URL property. -/
theorem pairwise_aggregateResults (pr : List (String × List SearchResult))
    (q : SearchQuery) :
    List.Pairwise distinctNormUrl (aggregateResults pr q) := by
  unfold aggregateResults
  by_cases h : collectResults pr = []
  · rw [if_pos h]; exact List.Pairwise.nil
  · rw [if_neg h]
    exact List.Pairwise.sublist (List.take_sublist _ _)
      (pairwise_rankResults _ q (pairwise_dedupResults _ []))

/-- Zipping a list with images of itself is a map of pairs. -/
theorem zip_map_self {α β γ : Type} (l : List α) (f : α → β) (g : α → γ) :
    (l.map f).zip (l.map g) = l.map (fun x => (f x, g x)) := by
  induction l with
  | nil => rfl
  | cons a rest ih => simp [List.zip_cons_cons, ih]

theorem sorted_rankResults (l : List SearchResult) (q : SearchQuery) :
    List.Sorted scoreGe (rankResults l q) :=
  List.sorted_insertionSort scoreGe _

theorem sorted_aggregateResults (pr : List (String × List SearchResult))
    (q : SearchQuery) : List.Sorted scoreGe (aggregateResults pr q) := by
  unfold aggregateResults
  by_cases h : collectResults pr = []
  · rw [if_pos h]; exact List.sorted_nil
  · rw [if_neg h]
    exact List.Pairwise.sublist (List.take_sublist _ _) (sorted_rankResults _ _)

/-- A provider whose `search` raises contributes no results, whatever the
query: `safe_search` catches the exception. -/
theorem safeSearch_of_error (p : Provider) (q : SearchQuery) (e : String)
    (h : p.search_outcome = .error e) : safeSearch p q = [] := by
  unfold safeSearch
  rw [h]
  split
  · rfl
  · split
    · rfl
    · split <;> rfl

theorem length_upsert_le (tbl : List CacheEntry) (e : CacheEntry) :
    (upsertEntry tbl e).length ≤ tbl.length + 1 := by
  unfold upsertEntry
  rw [List.length_append]
  simpa using Nat.add_le_add_right (List.length_filter_le _ tbl) 1

theorem checkCacheSize_of_le (cfg : CacheConfig) (tbl : List CacheEntry)
    (h : tbl.length ≤ cfg.max_entries) : checkCacheSize cfg tbl = tbl := by
  unfold checkCacheSize
  rw [if_neg (by omega)]

/-- A write into a below-capacity cache is exactly the keyed upsert. -/
theorem cacheStore_below_capacity (cfg : CacheConfig) (q : SearchQuery)
    (r : List SearchResult) (s : List String) (now : Nat) (tbl : List CacheEntry)
    (hen : cfg.enabled = true) (hr : r ≠ []) (hcap : tbl.length < cfg.max_entries) :
    cacheStore cfg q r s now tbl = upsertEntry tbl (mkCacheEntry cfg q r s now) := by
  unfold cacheStore
  rw [if_neg (by simp [hen, hr])]
  apply checkCacheSize_of_le
  calc (upsertEntry tbl (mkCacheEntry cfg q r s now)).length
      ≤ tbl.length + 1 := length_upsert_le _ _
    _ ≤ cfg.max_entries := hcap

theorem find?_upsert_self (tbl : List CacheEntry) (e : CacheEntry)
    (p : CacheEntry → Bool) (hp : p e = true)
    (hother : ∀ x : CacheEntry, x.query_hash ≠ e.query_hash → p x = false) :
    (upsertEntry tbl e).find? p = some e := by
  unfold upsertEntry
  rw [List.find?_append]
  have h1 : (tbl.filter fun r => ¬r.query_hash = e.query_hash).find? p = none := by
    apply List.find?_eq_none.mpr
    intro x hx
    have hne : x.query_hash ≠ e.query_hash := by
      simpa using (List.mem_filter.mp hx).2
    simp [hother x hne]
  rw [h1]
  simp [List.find?, hp]

theorem find?_upsert_none (tbl : List CacheEntry) (e : CacheEntry)
    (p : CacheEntry → Bool) (hp : p e = false)
    (hother : ∀ x : CacheEntry, x.query_hash ≠ e.query_hash → p x = false) :
    (upsertEntry tbl e).find? p = none := by
  unfold upsertEntry
  apply List.find?_eq_none.mpr
  intro x hx
  rcases List.mem_append.mp hx with h | h
  · have hne : x.query_hash ≠ e.query_hash := by
      simpa using (List.mem_filter.mp h).2
    simp [hother x hne]
  · rcases List.mem_singleton.mp h with rfl
    simp [hp]

theorem closeAll_of_closed (σ : RMState) (h : σ.is_closed = true) :
    closeAll σ = σ := by
  unfold closeAll
  rw [if_pos h]

theorem isClosed_closeAll (σ : RMState) : (closeAll σ).is_closed = true := by
  unfold closeAll
  by_cases h : σ.is_closed = true
  · rw [if_pos h]; exact h
  · rw [if_neg h]

/-! ### Claims -/

/-- Case analysis of the fan-out: the provider/result map when every task
finishes in time, the empty map otherwise. -/
theorem executeSearch_cases (q : SearchQuery) (provs : List Provider) :
    executeSearch q provs =
      if provs.all (fun p => p.in_time)
      then provs.map (fun p => (p.name, safeSearch p q))
      else [] := by
  simp only [executeSearch]
  by_cases h : provs.all (fun p => p.in_time) = true
  · simp only [if_pos h]
    exact zip_map_self provs (fun p => p.name) (fun p => safeSearch p q)
  · simp only [if_neg h, List.zip_nil_right]

/-- C2 (corrected): the fan-out deadline in `_execute_search` is
all-or-nothing.  If every selected provider finishes in time, the result
map pairs each provider with its `safe_search` output; but if the deadline
expires before *all* providers finish, the `TimeoutError` handler discards
the entire `gather` result, so even providers that completed in time
contribute nothing and aggregation proceeds with an empty result map. -/
theorem C2_deadline_all_or_nothing (q : SearchQuery) (provs : List Provider) :
    executeSearch q provs =
      if provs.all (fun p => p.in_time)
      then provs.map (fun p => (p.name, safeSearch p q))
      else [] :=
  executeSearch_cases q provs

def c2query : SearchQuery := { text := "новости" }

def c2result : SearchResult :=
  { title := "a", content := "b", url := "http://n.ru", source := "rss", score := 1/2 }

def c2completed : Provider := { name := "rss", search_outcome := .ok [c2result] }

def c2straggler : Provider := { name := "duckduckgo", in_time := false }

/-- C2 counterexample: provider `"rss"` completes in time with a non-empty
`safe_search` output, provider `"duckduckgo"` misses the deadline — yet the
fan-out returns the empty map, discarding the completed provider's results
(the claim says exactly the completed results are kept). -/
theorem C2_counterexample :
    executeSearch c2query [c2completed, c2straggler] = []
    ∧ safeSearch c2completed c2query ≠ [] := by decide

/-- C4 (confirmed): in every aggregated `Response`, two distinct results
with non-empty URLs have distinct normalised URLs; the dedup pass keeps
results with an empty raw URL verbatim (so they may repeat); and for every
normalised URL the survivor is the first result in provider-iteration
order (`find?` agrees before and after dedup). -/
theorem C4_dedup_invariant (pr : List (String × List SearchResult))
    (q : SearchQuery) (u : String) (hu : u ≠ "") :
    List.Pairwise distinctNormUrl (aggregateResults pr q)
    ∧ (dedupResults (collectResults pr) []).filter (fun r => decide (r.url = ""))
        = (collectResults pr).filter (fun r => decide (r.url = ""))
    ∧ (dedupResults (collectResults pr) []).find? (fun r => decide (normalizeUrl r.url = u))
        = (collectResults pr).find? (fun r => decide (normalizeUrl r.url = u)) :=
  ⟨pairwise_aggregateResults pr q,
   dedupResults_filter_empty _ [],
   dedupResults_find _ [] u hu (by simp)⟩

def c4resultA : SearchResult :=
  { title := "a", content := "", url := "HTTP://Example.com/", source := "duckduckgo", score := 9/10 }

def c4resultB : SearchResult :=
  { title := "b", content := "", url := "http://example.com", source := "wikipedia", score := 1/2 }

def c4resultC : SearchResult :=
  { title := "c", content := "", url := "", source := "duckduckgo", score := 1/4 }

def c4providerResults : List (String × List SearchResult) :=
  [("duckduckgo", [c4resultA, c4resultC]), ("wikipedia", [c4resultB, c4resultC])]

def c4query : SearchQuery := { text := "пример" }

/-- C4 witness: a concrete fan-out where two providers return the same URL
up to case and trailing slash, plus repeated empty-URL results. -/
theorem C4_witness :
    ("http://example.com" : String) ≠ ""
    ∧ (List.Pairwise distinctNormUrl (aggregateResults c4providerResults c4query)
      ∧ (dedupResults (collectResults c4providerResults) []).filter (fun r => decide (r.url = ""))
          = (collectResults c4providerResults).filter (fun r => decide (r.url = ""))
      ∧ (dedupResults (collectResults c4providerResults) []).find? (fun r => decide (normalizeUrl r.url = "http://example.com"))
          = (collectResults c4providerResults).find? (fun r => decide (normalizeUrl r.url = "http://example.com"))) :=
  ⟨by decide, C4_dedup_invariant c4providerResults c4query "http://example.com" (by decide)⟩

/-- C8 (confirmed): every aggregated result list is sorted by score
descending (`scoreGe`); the sort is stable — for each score value the
ranked list restricted to that score equals the bonus-adjusted input in
provider-iteration order — and re-running aggregation on identical inputs
yields the same sequence (definitional, since the embedding is a pure
function of the provider outputs). -/
theorem C8_sorted_stable (pr : List (String × List SearchResult))
    (q : SearchQuery) (rs : List SearchResult) (s : ℚ) :
    List.Sorted scoreGe (aggregateResults pr q)
    ∧ (rankResults rs q).filter (fun r => decide (r.score = s))
        = (rs.map (applyBonus q)).filter (fun r => decide (r.score = s))
    ∧ aggregateResults pr q = aggregateResults pr q :=
  ⟨sorted_aggregateResults pr q, filter_insertionSort s _, rfl⟩

/-- C9 (confirmed): after `close_all()`, every `get_session` call fails
with the use-after-close `RuntimeError`, and a second `close_all()` leaves
the manager state unchanged (idempotence). -/
theorem C9_resource_manager_lifecycle (σ : RMState) (name : String) :
    getSession (closeAll σ) name = .error "SearchResourceManager is closed"
    ∧ closeAll (closeAll σ) = closeAll σ := by
  constructor
  · unfold getSession
    rw [if_pos (isClosed_closeAll σ)]
  · exact closeAll_of_closed _ (isClosed_closeAll σ)

/-- C10 (confirmed): a result whose URL is non-empty but normalises to the
empty string (slash-only URLs) is dropped by aggregation — every member of
the aggregated output whose normalised URL is empty has a raw empty URL. -/
theorem C10_slash_only_urls_dropped (pr : List (String × List SearchResult))
    (q : SearchQuery) (r : SearchResult) (hmem : r ∈ aggregateResults pr q)
    (hnorm : normalizeUrl r.url = "") : r.url = "" := by
  unfold aggregateResults at hmem
  by_cases h : collectResults pr = []
  · rw [if_pos h] at hmem
    simp at hmem
  · rw [if_neg h] at hmem
    have h2 : r ∈ rankResults (dedupResults (collectResults pr) []) q :=
      (List.take_sublist _ _).subset hmem
    unfold rankResults at h2
    have h3 : r ∈ (dedupResults (collectResults pr) []).map (applyBonus q) :=
      ((List.perm_insertionSort scoreGe _).mem_iff).mp h2
    rcases List.mem_map.mp h3 with ⟨r0, hr0, rfl⟩
    rw [applyBonus_url] at hnorm ⊢
    exact dedupResults_norm_empty _ [] r0 hr0 hnorm

def c10result : SearchResult :=
  { title := "kept", content := "", url := "", source := "duckduckgo", score := 1/2 }

def c10slash : SearchResult :=
  { title := "dropped", content := "", url := "///", source := "duckduckgo", score := 1 }

def c10providerResults : List (String × List SearchResult) :=
  [("duckduckgo", [c10slash, c10result])]

def c10kept : SearchResult :=
  { title := "kept", content := "", url := "", source := "duckduckgo", score := 1/2,
    metadata := [("provider", "duckduckgo")] }

/-- C10 witness: with a slash-only URL and an empty URL in the fan-out, the
aggregated output contains the (tagged) empty-URL result, and the theorem
applies to it; the slash-only result is gone. -/
theorem C10_witness :
    c10kept ∈ aggregateResults c10providerResults c4query
    ∧ normalizeUrl c10kept.url = ""
    ∧ c10kept.url = ""
    ∧ c10slash.url ≠ ""
    ∧ (aggregateResults c10providerResults c4query).all (fun r => r.title ≠ "dropped") :=
  ⟨by decide, by decide,
   C10_slash_only_urls_dropped c10providerResults c4query c10kept (by decide) (by decide),
   by decide, by decide⟩

/-- After an in-capacity write, `get` before expiry returns the stored
results and sources unchanged. -/
theorem cacheGet_after_store_hit (cfg : CacheConfig) (q : SearchQuery)
    (r : List SearchResult) (s : List String) (now now' : Nat)
    (tbl : List CacheEntry) (hen : cfg.enabled = true) (hr : r ≠ [])
    (hcap : tbl.length < cfg.max_entries)
    (hfresh : now' < now + ttlForQueryType cfg q.query_type) :
    (cacheGet cfg q now' (cacheStore cfg q r s now tbl)).1 = some (r, s) := by
  have hst := cacheStore_below_capacity cfg q r s now tbl hen hr hcap
  have hfind : (upsertEntry tbl (mkCacheEntry cfg q r s now)).find?
      (getPred (hashQuery q) now') = some (mkCacheEntry cfg q r s now) := by
    apply find?_upsert_self
    · simp [getPred, entryLive, mkCacheEntry, hfresh]
    · intro x hx
      have hx' : x.query_hash ≠ hashQuery q := hx
      simp [getPred, hx']
  rw [hst]
  unfold cacheGet
  rw [if_neg (by simp [hen])]
  rw [hfind]
  rfl

/-- After an in-capacity write, `get` strictly past `createdAt + ttl`
misses, though the row is still physically present and left untouched. -/
theorem cacheGet_after_store_expired (cfg : CacheConfig) (q : SearchQuery)
    (r : List SearchResult) (s : List String) (now now' : Nat)
    (tbl : List CacheEntry) (hen : cfg.enabled = true) (hr : r ≠ [])
    (hcap : tbl.length < cfg.max_entries)
    (hexp : now + ttlForQueryType cfg q.query_type < now') :
    (cacheGet cfg q now' (cacheStore cfg q r s now tbl)).1 = none
    ∧ mkCacheEntry cfg q r s now ∈ cacheStore cfg q r s now tbl
    ∧ (cacheGet cfg q now' (cacheStore cfg q r s now tbl)).2
        = cacheStore cfg q r s now tbl := by
  have hst := cacheStore_below_capacity cfg q r s now tbl hen hr hcap
  have hfind : (upsertEntry tbl (mkCacheEntry cfg q r s now)).find?
      (getPred (hashQuery q) now') = none := by
    apply find?_upsert_none
    · have hlive : entryLive now' (mkCacheEntry cfg q r s now) = false := by
        simp only [entryLive, mkCacheEntry]
        simp only [decide_eq_false_iff_not]
        omega
      simp [getPred, hlive]
    · intro x hx
      have hx' : x.query_hash ≠ hashQuery q := hx
      simp [getPred, hx']
  refine ⟨?_, ?_, ?_⟩
  · rw [hst]
    unfold cacheGet
    rw [if_neg (by simp [hen])]
    rw [hfind]
  · rw [hst]
    unfold upsertEntry
    exact List.mem_append_right _ (List.mem_singleton.mpr rfl)
  · rw [hst]
    unfold cacheGet
    rw [if_neg (by simp [hen])]
    rw [hfind]

/-- C5 (confirmed): when a write leaves more live entries than
`max_entries`, the eviction pass (`_check_cache_size`) keeps exactly the
top `int(max_entries * 0.8)` rows under ORDER BY
`last_accessed DESC, access_count DESC`; thus the row count — and a
fortiori the live count — drops to at most 80% of the maximum, and every
retained row is at least as hot as every deleted row under that order. -/
theorem C5_eviction_coldest_first (cfg : CacheConfig) (tbl : List CacheEntry)
    (now : Nat) (hover : cfg.max_entries < liveCount tbl now) :
    checkCacheSize cfg tbl = (List.insertionSort cacheHotter tbl).take (keepCount cfg)
    ∧ (checkCacheSize cfg tbl).length ≤ keepCount cfg
    ∧ liveCount (checkCacheSize cfg tbl) now ≤ keepCount cfg
    ∧ ∀ a ∈ checkCacheSize cfg tbl,
        ∀ b ∈ (List.insertionSort cacheHotter tbl).drop (keepCount cfg),
          cacheHotter a b := by
  have hlen : cfg.max_entries < tbl.length :=
    lt_of_lt_of_le hover (List.length_filter_le _ _)
  have heq : checkCacheSize cfg tbl
      = (List.insertionSort cacheHotter tbl).take (keepCount cfg) := by
    unfold checkCacheSize
    rw [if_pos hlen]
  have hsorted : List.Pairwise cacheHotter
      ((List.insertionSort cacheHotter tbl).take (keepCount cfg)
        ++ (List.insertionSort cacheHotter tbl).drop (keepCount cfg)) := by
    rw [List.take_append_drop]
    exact List.sorted_insertionSort cacheHotter tbl
  have hlen2 : ((List.insertionSort cacheHotter tbl).take (keepCount cfg)).length
      ≤ keepCount cfg := by
    rw [List.length_take]
    exact min_le_left _ _
  refine ⟨heq, ?_, ?_, ?_⟩
  · rw [heq]
    exact hlen2
  · rw [heq]
    exact le_trans (List.length_filter_le _ _) hlen2
  · rw [heq]
    exact (List.pairwise_append.mp hsorted).2.2

def c5entryA : CacheEntry :=
  { query_hash := "a", query_text := "a", query_type := none, results := [c2result],
    sources := ["rss"], created_at := 0, expires_at := 1000, access_count := 5,
    last_accessed := 1 }

def c5entryB : CacheEntry :=
  { c5entryA with query_hash := "b", query_text := "b", access_count := 1, last_accessed := 9 }

def c5entryC : CacheEntry :=
  { c5entryA with query_hash := "c", query_text := "c", access_count := 3, last_accessed := 9 }

def c5config : CacheConfig := { max_entries := 2 }

def c5table : List CacheEntry := [c5entryA, c5entryB, c5entryC]

/-- C5 witness: three live rows against `max_entries = 2`; the pass keeps
only the hottest row (`keepCount = 1`), namely the one with the latest
`last_accessed` and, within that tie, the larger `access_count`. -/
theorem C5_witness :
    c5config.max_entries < liveCount c5table 0
    ∧ (checkCacheSize c5config c5table
        = (List.insertionSort cacheHotter c5table).take (keepCount c5config)
      ∧ (checkCacheSize c5config c5table).length ≤ keepCount c5config
      ∧ liveCount (checkCacheSize c5config c5table) 0 ≤ keepCount c5config
      ∧ ∀ a ∈ checkCacheSize c5config c5table,
          ∀ b ∈ (List.insertionSort cacheHotter c5table).drop (keepCount c5config),
            cacheHotter a b) :=
  ⟨by decide, C5_eviction_coldest_first c5config c5table 0 (by decide)⟩

/-- C6 (confirmed): an entry written with TTL `t` is treated as absent by
`get` once the clock strictly exceeds `createdAt + t` — `get` returns
`none` — even though the expired row is still physically present in the
table and `get` leaves the table unchanged. -/
theorem C6_ttl_expiry (cfg : CacheConfig) (q : SearchQuery)
    (r : List SearchResult) (s : List String) (now now' : Nat)
    (tbl : List CacheEntry) (hen : cfg.enabled = true) (hr : r ≠ [])
    (hcap : tbl.length < cfg.max_entries)
    (hexp : now + ttlForQueryType cfg q.query_type < now') :
    (cacheGet cfg q now' (cacheStore cfg q r s now tbl)).1 = none
    ∧ mkCacheEntry cfg q r s now ∈ cacheStore cfg q r s now tbl
    ∧ (cacheGet cfg q now' (cacheStore cfg q r s now tbl)).2
        = cacheStore cfg q r s now tbl :=
  cacheGet_after_store_expired cfg q r s now now' tbl hen hr hcap hexp

def c6query : SearchQuery := { text := "что такое лев", query_type := some "factual" }

def c6result : SearchResult :=
  { title := "Лев", content := "хищник", url := "http://w.org/lion",
    source := "wikipedia", score := 1 }

/-- C6 witness: a `"factual"` entry written at time 100 (TTL 86400) is
missed by `get` at time 86501 while its row is still in the table. -/
theorem C6_witness :
    ({} : CacheConfig).enabled = true
    ∧ ([c6result] : List SearchResult) ≠ []
    ∧ (([] : List CacheEntry)).length < ({} : CacheConfig).max_entries
    ∧ 100 + ttlForQueryType {} c6query.query_type < 86501
    ∧ ((cacheGet {} c6query 86501 (cacheStore {} c6query [c6result] ["wikipedia"] 100 [])).1 = none
      ∧ mkCacheEntry {} c6query [c6result] ["wikipedia"] 100
          ∈ cacheStore {} c6query [c6result] ["wikipedia"] 100 []
      ∧ (cacheGet {} c6query 86501 (cacheStore {} c6query [c6result] ["wikipedia"] 100 [])).2
          = cacheStore {} c6query [c6result] ["wikipedia"] 100 []) :=
  ⟨by decide, by decide, by decide, by decide,
   C6_ttl_expiry {} c6query [c6result] ["wikipedia"] 100 86501 []
     (by decide) (by decide) (by decide) (by decide)⟩

theorem buildQuery_inr_none (cfg : RouterConfig) (q : SearchQuery) :
    buildQuery cfg (.inr q) none none none = q := rfl

/-- A cache hit short-circuits `search`: the response carries the cached
results and sources with `cache_hit = true`. -/
theorem routerSearch_cache_hit (cfg : RouterConfig) (provs : List Provider)
    (q : SearchQuery) (now : Nat) (σ : RouterState)
    (rs : List SearchResult) (ss : List String)
    (hen : cfg.enabled = true)
    (hrl : cfg.rate_limiting.enabled = false)
    (hhit : (cacheGet cfg.cache q now σ.cache_table).1 = some (rs, ss)) :
    routerSearch cfg provs (.inr q) none none none now σ
      = .ok ({ query := q, results := rs, total_results := rs.length,
               cache_hit := true, sources_used := ss },
             { cache_table := (cacheGet cfg.cache q now σ.cache_table).2,
               request_times := σ.request_times }) := by
  have hc : checkRateLimit cfg now σ.request_times = some σ.request_times := by
    unfold checkRateLimit
    rw [if_pos (by simp [hrl])]
  simp only [routerSearch, hen, not_true, if_false, hc, buildQuery_inr_none, hhit]

/-- C3 (corrected): the round trip holds only for non-empty result lists
(and an enabled, below-capacity cache): `store(q, r, s)` followed by
`get(q)` within TTL returns `(r, s)` unchanged, and a subsequent
`search` call with the same (type-stamped) query object returns the cached
results with `cacheHit = true`.  For `r = []` the claim fails: `store` is a
no-op (`if not self.enabled or not results: return`), see the
counterexample. -/
theorem C3_cache_round_trip (cfg : RouterConfig) (provs : List Provider)
    (q : SearchQuery) (r : List SearchResult) (s : List String)
    (now now' : Nat) (tbl : List CacheEntry) (times : List Nat)
    (hen : cfg.enabled = true) (hrl : cfg.rate_limiting.enabled = false)
    (hcen : cfg.cache.enabled = true) (hr : r ≠ [])
    (hcap : tbl.length < cfg.cache.max_entries)
    (hfresh : now' < now + ttlForQueryType cfg.cache q.query_type) :
    (cacheGet cfg.cache q now' (cacheStore cfg.cache q r s now tbl)).1 = some (r, s)
    ∧ routerSearch cfg provs (.inr q) none none none now'
        { cache_table := cacheStore cfg.cache q r s now tbl, request_times := times }
      = .ok ({ query := q, results := r, total_results := r.length,
               cache_hit := true, sources_used := s },
             { cache_table :=
                 (cacheGet cfg.cache q now' (cacheStore cfg.cache q r s now tbl)).2,
               request_times := times }) := by
  have h1 := cacheGet_after_store_hit cfg.cache q r s now now' tbl hcen hr hcap hfresh
  exact ⟨h1, routerSearch_cache_hit cfg provs q now'
    { cache_table := cacheStore cfg.cache q r s now tbl, request_times := times }
    r s hen hrl h1⟩

/-- C3 counterexample: with an empty result list, `store` writes nothing,
so an immediately following `get` within TTL misses instead of returning
`([], s)` — the claim as stated (for every `r`, `s`) is false. -/
theorem C3_counterexample :
    ({} : CacheConfig).enabled = true
    ∧ (150 : Nat) < 100 + ttlForQueryType {} c6query.query_type
    ∧ (cacheGet {} c6query 150 (cacheStore {} c6query [] ["wikipedia"] 100 [])).1 = none
    ∧ cacheStore {} c6query [] ["wikipedia"] 100 [] = [] := by decide

/-- C3 witness: a concrete non-empty round trip through `store`, `get` and
`search` with a cache hit. -/
theorem C3_witness :
    ({} : RouterConfig).enabled = true
    ∧ ({} : RouterConfig).rate_limiting.enabled = false
    ∧ ({} : RouterConfig).cache.enabled = true
    ∧ ([c6result] : List SearchResult) ≠ []
    ∧ ([] : List CacheEntry).length < ({} : RouterConfig).cache.max_entries
    ∧ (150 : Nat) < 100 + ttlForQueryType ({} : RouterConfig).cache c6query.query_type
    ∧ ((cacheGet ({} : RouterConfig).cache c6query 150
          (cacheStore ({} : RouterConfig).cache c6query [c6result] ["wikipedia"] 100 [])).1
        = some ([c6result], ["wikipedia"])
      ∧ routerSearch {} [] (.inr c6query) none none none 150
          { cache_table := cacheStore ({} : RouterConfig).cache c6query [c6result] ["wikipedia"] 100 [],
            request_times := [] }
        = .ok ({ query := c6query, results := [c6result],
                 total_results := [c6result].length, cache_hit := true,
                 sources_used := ["wikipedia"] },
               { cache_table :=
                   (cacheGet ({} : RouterConfig).cache c6query 150
                     (cacheStore ({} : RouterConfig).cache c6query [c6result] ["wikipedia"] 100 [])).2,
                 request_times := [] })) :=
  ⟨by decide, by decide, by decide, by decide, by decide, by decide,
   C3_cache_round_trip {} [] c6query [c6result] ["wikipedia"] 100 150 [] []
     (by decide) (by decide) (by decide) (by decide) (by decide) (by decide)⟩

/-- On the fan-out path (enabled, rate limit passed, cache miss, non-empty
provider selection) `search` returns `.ok`, and the response's
`sources_used` is the first projection of the fan-out's provider/result
map. -/
theorem routerSearch_fanout_sources (cfg : RouterConfig) (provs : List Provider)
    (q : SearchQuery) (now : Nat) (σ : RouterState) (times' : List Nat)
    (hen : cfg.enabled = true)
    (hrl : checkRateLimit cfg now σ.request_times = some times')
    (hmiss : (cacheGet cfg.cache q now σ.cache_table).1 = none)
    (hsel : selectProviders cfg provs (classify cfg.classification q) ≠ []) :
    (routerSearch cfg provs (.inr q) none none none now σ).isOk = true
    ∧ sourcesOf (routerSearch cfg provs (.inr q) none none none now σ)
      = (executeSearch
          { q with query_type := some (classify cfg.classification q).primary_type }
          (selectProviders cfg provs (classify cfg.classification q))).map
        (fun e => e.1) := by
  simp only [routerSearch, hen, not_true, if_false, hrl, buildQuery_inr_none, hmiss,
    if_neg hsel, sourcesOf, Except.isOk]
  exact ⟨rfl, trivial⟩

/-- C1 (corrected): a provider whose `search` raises never makes
`SearchRouter.search` raise — `safe_search` swallows the exception and the
provider contributes zero results — but the returned `sources_used` does
*not* exclude the failing provider: it lists every selected provider's
name, because `_execute_search` stores an empty list under the failing
provider's key and `search` sets `sources_used = list(provider_results.keys())`. -/
theorem C1_provider_isolation (cfg : RouterConfig) (provs : List Provider)
    (p : Provider) (q : SearchQuery) (now : Nat) (σ : RouterState)
    (times' : List Nat) (e : String)
    (hen : cfg.enabled = true)
    (hrl : checkRateLimit cfg now σ.request_times = some times')
    (hmiss : (cacheGet cfg.cache q now σ.cache_table).1 = none)
    (hp : p ∈ selectProviders cfg provs (classify cfg.classification q))
    (hfail : p.search_outcome = .error e)
    (htime : (selectProviders cfg provs (classify cfg.classification q)).all
      (fun pp => pp.in_time) = true) :
    (routerSearch cfg provs (.inr q) none none none now σ).isOk = true
    ∧ (∀ q0 : SearchQuery, safeSearch p q0 = [])
    ∧ p.name ∈ sourcesOf (routerSearch cfg provs (.inr q) none none none now σ) := by
  have hsel : selectProviders cfg provs (classify cfg.classification q) ≠ [] :=
    List.ne_nil_of_mem hp
  obtain ⟨hok, hsrc⟩ :=
    routerSearch_fanout_sources cfg provs q now σ times' hen hrl hmiss hsel
  refine ⟨hok, fun q0 => safeSearch_of_error p q0 e hfail, ?_⟩
  rw [hsrc, executeSearch_cases, if_pos htime, List.map_map]
  exact List.mem_map_of_mem (fun pp => pp.name) hp

def c1fail : Provider := { name := "fail", search_outcome := .error "boom" }

def c1config : RouterConfig :=
  { strategy := "all_providers", cache := { enabled := false } }

/-- C1 counterexample: with a single always-throwing provider `"fail"` the
call does not raise, but `sources_used = ["fail"]` — the failing provider
is *included*, contradicting the claim's "sourcesUsed excludes that
failing provider". -/
theorem C1_counterexample :
    c1fail.search_outcome = .error "boom"
    ∧ (routerSearch c1config [c1fail] (.inl "hi") none none none 0 {}).isOk = true
    ∧ sourcesOf (routerSearch c1config [c1fail] (.inl "hi") none none none 0 {})
        = ["fail"] := by decide

/-- C1 witness: the amended theorem applied to the concrete failing
provider under `all_providers` routing. -/
theorem C1_witness :
    c1config.enabled = true
    ∧ checkRateLimit c1config 0 ({} : RouterState).request_times = some []
    ∧ (cacheGet c1config.cache (buildQuery c1config (.inl "hi") none none none) 0
        ({} : RouterState).cache_table).1 = none
    ∧ c1fail ∈ selectProviders c1config [c1fail]
        (classify c1config.classification (buildQuery c1config (.inl "hi") none none none))
    ∧ ((routerSearch c1config [c1fail]
          (.inr (buildQuery c1config (.inl "hi") none none none)) none none none 0 {}).isOk = true
      ∧ (∀ q0 : SearchQuery, safeSearch c1fail q0 = [])
      ∧ c1fail.name ∈ sourcesOf (routerSearch c1config [c1fail]
          (.inr (buildQuery c1config (.inl "hi") none none none)) none none none 0 {})) :=
  ⟨by decide, by decide, by decide, by decide,
   C1_provider_isolation c1config [c1fail] c1fail
     (buildQuery c1config (.inl "hi") none none none) 0 {} [] "boom"
     (by decide) (by decide) (by decide) (by decide) (by decide) (by decide)⟩

theorem ruleScore_pos (tl : List Char) (r : ClassRule) (hw : 0 < r.weight)
    (kw : String) (hk : kw ∈ r.keywords) (hs : containsSub tl kw.data = true) :
    0 < ruleScore tl r := by
  unfold ruleScore
  have h1 : 0 < r.keywords.countP (fun k => containsSub tl k.data) :=
    List.countP_pos_iff.mpr ⟨kw, hk, hs⟩
  have h2 : (1 : ℚ) ≤ (r.keywords.countP (fun k => containsSub tl k.data) : ℚ) := by
    exact_mod_cast h1
  have h3 : (0 : ℚ) ≤ (r.patterns.countP (fun p => searchB p tl) : ℚ) := by positivity
  have h4 : (1 : ℚ) ≤ (r.keywords.countP (fun k => containsSub tl k.data) : ℚ)
      + (r.patterns.countP (fun p => searchB p tl) : ℚ) := by linarith
  calc (0 : ℚ) < r.weight * 1 := by simpa using hw
    _ ≤ r.weight * ((r.keywords.countP (fun k => containsSub tl k.data) : ℚ)
        + (r.patterns.countP (fun p => searchB p tl) : ℚ)) :=
      mul_le_mul_of_nonneg_left h4 (le_of_lt hw)

theorem scoreFactual_pos (q : SearchQuery) (kw : String)
    (hk : kw ∈ factualRule.keywords)
    (hs : containsSub (lowerChars q.text.data) kw.data = true) :
    0 < scoreFactual q := by
  unfold scoreFactual
  have h1 := ruleScore_pos (lowerChars q.text.data) factualRule
    (by norm_num [factualRule]) kw hk hs
  have h2 : (0 : ℚ) ≤ (2/10) * ((namedEntities q.text).length : ℚ) := by positivity
  linarith

theorem scoreCurrent_pos (q : SearchQuery) (kw : String)
    (hk : kw ∈ currentRule.keywords)
    (hs : containsSub (lowerChars q.text.data) kw.data = true) :
    0 < scoreCurrent q := by
  unfold scoreCurrent
  have h1 := ruleScore_pos (lowerChars q.text.data) currentRule
    (by norm_num [currentRule]) kw hk hs
  have h2 : (0 : ℚ) ≤ (3/10) * ((temporalMarkers q.text).length : ℚ) := by positivity
  linarith

theorem scoreGeneral_pos (q : SearchQuery) (kw : String)
    (hk : kw ∈ generalRule.keywords)
    (hs : containsSub (lowerChars q.text.data) kw.data = true) :
    0 < scoreGeneral q := by
  unfold scoreGeneral
  exact ruleScore_pos (lowerChars q.text.data) generalRule
    (by norm_num [generalRule]) kw hk hs

/-- C7 (corrected): a trigger keyword of type `t` only guarantees
`primaryType = t` and `confidence > 0.5` when no *other* type accrues any
score (no keyword, pattern, temporal-marker or named-entity evidence for
the other types); then the winner's confidence is in fact 1.  Without that
proviso the claim is false — see the counterexample, where a `"general"`
trigger keyword is present but competing `"current"` evidence wins. -/
theorem C7_trigger_keyword (cfg : ClassifierConfig) (q : SearchQuery)
    (t kw : String) (hk : kw ∈ keywordsOfType t)
    (hs : containsSub (lowerChars q.text.data) kw.data = true)
    (hz : ∀ t' ∈ (["factual", "current", "general"] : List String),
      t' ≠ t → typeScore q t' = 0) :
    (classify cfg q).primary_type = t ∧ 1/2 < (classify cfg q).confidence := by
  by_cases hf : t = "factual"
  · subst hf
    have hc : scoreCurrent q = 0 := by
      have := hz "current" (by simp) (by decide)
      simpa [typeScore] using this
    have hg : scoreGeneral q = 0 := by
      have := hz "general" (by simp) (by decide)
      simpa [typeScore] using this
    have hsf : 0 < scoreFactual q :=
      scoreFactual_pos q kw (by simpa [keywordsOfType] using hk) hs
    constructor
    · simp only [classify, hc, hg, add_zero]
      rw [if_neg (ne_of_gt hsf)]
      unfold argmaxType
      rw [if_pos ⟨le_of_lt hsf, le_of_lt hsf⟩]
    · simp only [classify, hc, hg, add_zero]
      rw [if_neg (ne_of_gt hsf)]
      unfold maxScore
      rw [if_pos ⟨le_of_lt hsf, le_of_lt hsf⟩, div_self (ne_of_gt hsf)]
      norm_num
  · by_cases hcu : t = "current"
    · subst hcu
      have hfa : scoreFactual q = 0 := by
        have := hz "factual" (by simp) (by decide)
        simpa [typeScore] using this
      have hg : scoreGeneral q = 0 := by
        have := hz "general" (by simp) (by decide)
        simpa [typeScore] using this
      have hsc : 0 < scoreCurrent q :=
        scoreCurrent_pos q kw (by simpa [keywordsOfType] using hk) hs
      have hcond : ¬(scoreCurrent q ≤ 0 ∧ (0:ℚ) ≤ 0) := fun h =>
        absurd h.1 (not_le.mpr hsc)
      constructor
      · simp only [classify, hfa, hg, add_zero, zero_add]
        rw [if_neg (ne_of_gt hsc)]
        unfold argmaxType
        rw [if_neg hcond, if_pos (le_of_lt hsc)]
      · simp only [classify, hfa, hg, add_zero, zero_add]
        rw [if_neg (ne_of_gt hsc)]
        unfold maxScore
        rw [if_neg hcond, if_pos (le_of_lt hsc), div_self (ne_of_gt hsc)]
        norm_num
    · by_cases hge : t = "general"
      · subst hge
        have hfa : scoreFactual q = 0 := by
          have := hz "factual" (by simp) (by decide)
          simpa [typeScore] using this
        have hc : scoreCurrent q = 0 := by
          have := hz "current" (by simp) (by decide)
          simpa [typeScore] using this
        have hsg : 0 < scoreGeneral q :=
          scoreGeneral_pos q kw (by simpa [keywordsOfType] using hk) hs
        have hcond : ¬((0:ℚ) ≤ 0 ∧ scoreGeneral q ≤ 0) := fun h =>
          absurd h.2 (not_le.mpr hsg)
        have hcond2 : ¬scoreGeneral q ≤ (0:ℚ) := not_le.mpr hsg
        constructor
        · simp only [classify, hfa, hc, zero_add]
          rw [if_neg (ne_of_gt hsg)]
          unfold argmaxType
          rw [if_neg hcond, if_neg hcond2]
        · simp only [classify, hfa, hc, zero_add]
          rw [if_neg (ne_of_gt hsg)]
          unfold maxScore
          rw [if_neg hcond, if_neg hcond2, div_self (ne_of_gt hsg)]
          norm_num
      · exfalso
        have hempty : keywordsOfType t = [] := by
          simp [keywordsOfType, hf, hcu, hge]
        rw [hempty] at hk
        exact (List.not_mem_nil kw) hk

/-- C7 counterexample: `"как новости"` contains the `"general"` trigger
keyword `"как"`, but classification returns `"current"` (score 1.8 from the
`"новости"` keyword and pattern versus 1.2 for `"general"`), refuting the
claim that any present trigger keyword forces its own type. -/
theorem C7_counterexample :
    "как" ∈ keywordsOfType "general"
    ∧ containsSub (lowerChars ("как новости" : String).data) "как".data = true
    ∧ (classify {} { text := "как новости" }).primary_type = "current" := by decide

/-- C7 witness: `"определение"` triggers only `"factual"` evidence; the
amended theorem yields `primaryType = "factual"` with confidence above the
0.5 default. -/
theorem C7_witness :
    "определение" ∈ keywordsOfType "factual"
    ∧ containsSub (lowerChars ("определение" : String).data) "определение".data = true
    ∧ (∀ t' ∈ (["factual", "current", "general"] : List String),
        t' ≠ "factual" → typeScore { text := "определение" } t' = 0)
    ∧ ((classify {} { text := "определение" }).primary_type = "factual"
      ∧ 1/2 < (classify {} { text := "определение" }).confidence) :=
  ⟨by decide, by decide, by decide,
   C7_trigger_keyword {} { text := "определение" } "factual" "определение"
     (by decide) (by decide) (by decide)⟩
